import Mathlib

/-!
# BusyCrab: shallow embedding and verification

A shallow Lean 4 embedding of the core of the `busycrab` repository
(`src/lib.rs`, `src/motion/{crab,matrix,mandelbrot,clock}.rs`), together
with theorems settling the specification claims about it.

Modelling conventions:
* Rust `usize`/`u32`/`u64` become `Nat`, `i32` becomes `Int`.
* Rust `f32`/`f64` values become `ℚ` (every finite float is a rational);
  float arithmetic is modelled as exact rational arithmetic, `as u8` /
  `as usize` casts as saturating truncation toward zero, and transcendental
  functions (`sin`, `cos`) as oracle parameters constrained only by the
  range bound every implementation satisfies.
* Randomness and the platform/mouse capabilities are passed in explicitly
  as oracles; terminal I/O is modelled by returning the data that would be
  written (glyph rows, mouse-call lists) instead of printing it.
* A Rust `panic!` (e.g. `rand`'s `random_range` on an empty range) is
  modelled by returning `none`.
-/

namespace BusyCrab

/-! ## Motion selection (`src/lib.rs`, `BusyCrab::with_motion`)

`with_motion` lowercases the selector and matches it: `"crab"` selects the
bouncing-crab motion, `"matrix"` the rain motion, everything else selects
no motion.  `String.toLower` models Rust's `to_lowercase` (they agree on
ASCII selector strings, which is all the interface uses). -/

/-- The two motion variants `BusyCrab::with_motion` can actually construct
(`CrabMotion` is the Bounce animation, `MatrixMotion` the Rain animation). -/
inductive MotionKind where
  | crab
  | matrix
  deriving DecidableEq, Repr

/-- Rust's `str::to_lowercase`, character by character (it agrees with
per-`char` lowercasing on the ASCII selector strings this interface
uses). -/
def to_lowercase (s : String) : String :=
  String.mk (s.data.map Char.toLower)

/-- `BusyCrab::with_motion`: selects the stored motion from a string key.
Mirrors the Rust `match motion_type.to_lowercase().as_str()` with arms
`"crab"`, `"matrix"`, and `"none" | _ => None`. -/
def with_motion (motion_type : String) : Option MotionKind :=
  let key := to_lowercase motion_type
  if key = "crab" then some MotionKind.crab
  else if key = "matrix" then some MotionKind.matrix
  else none

/-- `BusyCrab::has_motion` on the field set by `with_motion`. -/
def has_motion (motion : Option MotionKind) : Bool :=
  motion.isSome

/-! ## Bounce motion (`src/motion/crab.rs`, `CrabMotion::update`)

The per-tick state transition of the bouncing crab.  The freshly
re-queried terminal width (already reduced by `saturating_sub(5)` at the
query site) is passed in as a parameter; the rendering side effect prints
`position` spaces followed by the glyph and is not part of the state. -/

/-- The mutable state of `CrabMotion` that the position update touches. -/
structure CrabState where
  position : Nat
  direction : Int
  deriving DecidableEq, Repr

/-- `CrabMotion::new()` (with the width held separately): position 0,
direction 1. -/
def crabInit : CrabState := ⟨0, 1⟩

/-- The position/direction step of `CrabMotion::update` for one tick, with
`width` the terminal width in effect for this tick:
`new_position = position + direction`; if it is `≤ 0` clamp to `0` and set
direction `1`; if it is `≥ width` clamp to `width` and set direction `-1`;
otherwise adopt it. -/
def crabUpdate (width : Nat) (s : CrabState) : CrabState :=
  let newPosition : Int := (s.position : Int) + s.direction
  if newPosition ≤ 0 then
    ⟨0, 1⟩
  else if (width : Int) ≤ newPosition then
    ⟨width, -1⟩
  else
    ⟨newPosition.toNat, s.direction⟩

/-- A whole sequence of ticks: fold `crabUpdate` over the per-tick
terminal widths. -/
def crabRun (s : CrabState) (widths : List Nat) : CrabState :=
  widths.foldl (fun st w => crabUpdate w st) s

/-! ## Activity loop (`src/lib.rs`)

`run_activity_loop` / `execute_activity_cycle` / `simulate_activity`,
with the platform's `prevent_sleep`, the shared running flag, and
`wait_for_next_cycle` supplied per-iteration by an environment list, and
the mouse capability modelled by the list of `mouse_move_relative` calls
a cycle performs. -/

/-- What the environment supplies to one iteration of the `while` loop in
`run_activity_loop`: the value `running.load` returns at the loop head,
the result of `platform.prevent_sleep()`, and the value
`wait_for_next_cycle` returns. -/
structure CycleEnv where
  running : Bool
  sleepResult : Except String Unit
  waitResult : Bool

/-- The observable outcome of the loop: the final activity counter, the
`mouse_move_relative` calls issued (in order), and the propagated result. -/
structure LoopOutcome where
  count : Nat
  mouseCalls : List (Int × Int)
  result : Except String Unit

/-- `BusyCrab::simulate_activity`: the two relative mouse moves of one
cycle, `(wiggle, 0)` then `(-wiggle, 0)`. -/
def simulate_activity (wiggle : Int) : List (Int × Int) :=
  [(wiggle, 0), (-wiggle, 0)]

/-- `BusyCrab::execute_activity_cycle`: `prevent_sleep()?`, then
`simulate_activity`, then `*activity_count += 1`.  Returns the new counter
and the mouse calls made; an error short-circuits before the mouse moves
and the increment. -/
def execute_activity_cycle (sleepResult : Except String Unit) (wiggle : Int)
    (activity_count : Nat) : Except String (Nat × List (Int × Int)) :=
  match sleepResult with
  | Except.error e => Except.error e
  | Except.ok _ => Except.ok (activity_count + 1, simulate_activity wiggle)

/-- `BusyCrab::run_activity_loop`: `while running.load { cycle?; if
!wait_for_next_cycle { break } }`, driven by the finite environment list
(an exhausted list models the flag reading false). -/
def run_activity_loop (wiggle : Int) : List CycleEnv → Nat → LoopOutcome
  | [], count => ⟨count, [], Except.ok ()⟩
  | env :: rest, count =>
    if env.running then
      match execute_activity_cycle env.sleepResult wiggle count with
      | Except.error e => ⟨count, [], Except.error e⟩
      | Except.ok (count', calls) =>
        if env.waitResult then
          let tail := run_activity_loop wiggle rest count'
          ⟨tail.count, calls ++ tail.mouseCalls, tail.result⟩
        else
          ⟨count', calls, Except.ok ()⟩
    else
      ⟨count, [], Except.ok ()⟩

/-- An environment entry describing a cycle that runs and succeeds. -/
def okCycle (env : CycleEnv) : Prop :=
  env.running = true ∧ env.sleepResult = Except.ok () ∧ env.waitResult = true

/-! ## Rain motion (`src/motion/matrix.rs`, `MatrixMotion::update_drops`)

The drop-advance phase.  Randomness comes in as oracles: `coin i` is the
result of `rng.random_bool(0.025)` for column `i`, and `randRow i` seeds
`rng.random_range(0..rows)`, whose value is `randRow i % rows` when
`rows > 0`.  `random_range` on the empty range `0..0` panics in the `rand`
crate, which the model reports as `none`. -/

/-- One drop's step inside the `for` loop of `MatrixMotion::update_drops`:
if the drop has fallen more than `rows + 10` past the top or the coin
fires, reset it to a random negative starting row (`none` models the
`random_range(0..rows)` panic when `rows = 0`); otherwise move it down by
one row. -/
def dropStep (rows : Nat) (coin : Bool) (randRow : Nat) (drop : ℚ) : Option ℚ :=
  if (rows : ℚ) + 10 < drop ∨ coin then
    if rows = 0 then none
    else some (-((randRow % rows : Nat) : ℚ))
  else
    some (drop + 1)

/-- The `for i in 0..self.drops.len()` loop of `update_drops`, walking the
drop list with `i` the current column index; a panicking step aborts the
whole update (`none`). -/
def update_drops_go (rows : Nat) (coin : Nat → Bool) (randRow : Nat → Nat) :
    Nat → List ℚ → Option (List ℚ)
  | _, [] => some []
  | i, drop :: drops =>
    match dropStep rows (coin i) (randRow i) drop with
    | none => none
    | some drop' =>
      (update_drops_go rows coin randRow (i + 1) drops).map (drop' :: ·)

/-- `MatrixMotion::update_drops`: apply `dropStep` to every drop. -/
def update_drops (rows : Nat) (drops : List ℚ) (coin : Nat → Bool)
    (randRow : Nat → Nat) : Option (List ℚ) :=
  update_drops_go rows coin randRow 0 drops

/-! ## FractalZoom motion (`src/motion/mandelbrot.rs`)

### Escape-time iteration (`MandelbrotMotion::mandelbrot_iterations`)

`while iterations < max_iterations && (zx*zx + zy*zy) < 4.0 { ... }`,
counting iterations.  The loop is expressed with the remaining iteration
budget (`max_iterations - iterations`) as fuel; every arithmetic step is
the source's, over ℚ. -/

/-- The escape-time loop body with `fuel` iterations left to spend:
stops (returning 0 further iterations) once `zx² + zy² ≥ 4`, else performs
`zx ← zx² - zy² + x`, `zy ← 2·zx·zy + y` and counts one iteration. -/
def mandelbrotGo (x y : ℚ) : Nat → ℚ → ℚ → Nat
  | 0, _, _ => 0
  | fuel + 1, zx, zy =>
    if zx * zx + zy * zy < 4 then
      mandelbrotGo x y fuel (zx * zx - zy * zy + x) (2 * zx * zy + y) + 1
    else
      0

/-- `MandelbrotMotion::mandelbrot_iterations`: run the escape-time loop
from `z = 0` with at most `max_iterations` iterations. -/
def mandelbrot_iterations (max_iterations : Nat) (x y : ℚ) : Nat :=
  mandelbrotGo x y max_iterations 0 0

/-! ### Float casts

Rust float-to-integer `as` casts truncate toward zero and saturate at the
target type's bounds; `% 1.0` is the IEEE remainder with the dividend's
sign. -/

/-- Truncation toward zero on ℚ (`f32 as` integer semantics before
saturation). -/
def rustTrunc (x : ℚ) : Int :=
  if 0 ≤ x then ⌊x⌋ else -⌊-x⌋

/-- `as u8` on a float: saturating truncation into `[0, 255]`. -/
def asU8 (x : ℚ) : Nat :=
  min 255 (max 0 (rustTrunc x)).toNat

/-- `as usize` on a float: truncation clamped below at `0` (the `usize`
upper bound is never approached here, so it is left unbounded). -/
def asUsize (x : ℚ) : Nat :=
  (max 0 (rustTrunc x)).toNat

/-- `x % 1.0` on floats: `x - trunc(x) * 1.0`. -/
def rem1 (x : ℚ) : ℚ :=
  x - (rustTrunc x : ℚ)

/-! ### Color and character mapping
(`MandelbrotMotion::get_color`, `MandelbrotMotion::get_character`) -/

/-- The literal `color_palette` array of `get_color`. -/
def color_palette : List Nat := [
  16, 17, 18, 19, 20, 21, 22, 23, 24, 25, 26, 27, 28, 29, 30, 31,
  32, 33, 34, 35, 36, 37, 38, 39, 40, 41, 42, 43, 44, 45, 46, 47,
  48, 49, 50, 51, 52, 53, 54, 55, 56, 57, 58, 59, 60, 61, 62, 63,
  64, 65, 66, 67, 68, 69, 70, 71, 72, 73, 74, 75, 76, 77, 78, 79,
  80, 81, 82, 83, 84, 85, 86, 87, 88, 89, 90, 91, 92, 93, 94, 95,
  96, 97, 98, 99, 100, 101, 102, 103, 104, 105, 106, 107, 108, 109, 110, 111,
  112, 113, 114, 115, 116, 117, 118, 119, 120, 121, 122, 123, 124, 125, 126, 127,
  128, 129, 130, 131, 132, 133, 134, 135, 136, 137, 138, 139, 140, 141, 142, 143,
  144, 145, 146, 147, 148, 149, 150, 151, 152, 153, 154, 155, 156, 157, 158, 159,
  160, 161, 162, 163, 164, 165, 166, 167, 168, 169, 170, 171, 172, 173, 174, 175,
  176, 177, 178, 179, 180, 181, 182, 183, 184, 185, 186, 187, 188, 189, 190, 191,
  192, 193, 194, 195, 196, 197, 198, 199, 200, 201, 202, 203, 204, 205, 206, 207,
  208, 209, 210, 211, 212, 213, 214, 215, 216, 217, 218, 219, 220, 221, 222, 223,
  224, 225, 226, 227, 228, 229, 230, 231]

/-- The palette index `get_color` looks up for a point outside the set:
`normalized = (iterations + color_shift) / max_iterations`,
`color_index = (normalized * 255.0) as u8`,
`cycle = (color_index * 0.1 + color_shift) % 1.0`,
`index = (cycle * (palette.len() - 1)) as usize`, clamped by
`.min(palette.len() - 1)`. -/
def get_color_index (max_iterations : Nat) (color_shift : ℚ)
    (iterations : Nat) : Nat :=
  let normalized : ℚ := ((iterations : ℚ) + color_shift) / (max_iterations : ℚ)
  let color_index : Nat := asU8 (normalized * 255)
  let cycle : ℚ := rem1 ((color_index : ℚ) * (1 / 10) + color_shift)
  let index : Nat := asUsize (cycle * ((color_palette.length : ℚ) - 1))
  min index (color_palette.length - 1)

/-- `MandelbrotMotion::get_color`: black (0) exactly at `max_iterations`,
otherwise the palette entry at `get_color_index`. -/
def get_color (max_iterations : Nat) (color_shift : ℚ)
    (iterations : Nat) : Nat :=
  if iterations = max_iterations then 0
  else color_palette.getD (get_color_index max_iterations color_shift iterations) 0

/-- The literal character gradient of `get_character`. -/
def mandel_chars : List Char := [' ', '.', ':', ';', '+', '*', 'x', 'X', '#', '█']

/-- The gradient index `get_character` looks up for a point outside the
set: `normalized = iterations / max_iterations`,
`index = (normalized * (chars.len() - 1)) as usize`, clamped by
`.min(chars.len() - 1)`. -/
def get_character_index (max_iterations iterations : Nat) : Nat :=
  let normalized : ℚ := (iterations : ℚ) / (max_iterations : ℚ)
  let index : Nat := asUsize (normalized * ((mandel_chars.length : ℚ) - 1))
  min index (mandel_chars.length - 1)

/-- `MandelbrotMotion::get_character`: the solid block exactly at
`max_iterations`, otherwise the gradient character at
`get_character_index`. -/
def get_character (max_iterations iterations : Nat) : Char :=
  if iterations = max_iterations then '█'
  else mandel_chars.getD (get_character_index max_iterations iterations) ' '

/-! ### Per-tick animation update (`MandelbrotMotion::update_animation`)

State over ℚ, with `sin`, `cos` and `π` supplied as oracles (`sinF`,
`cosF`, `piV`): the only facts the claims need about them are the range
bounds every float implementation satisfies. -/

/-- The fields of `MandelbrotMotion` that `update_animation` reads or
writes. -/
structure MandelAnimState where
  frame_count : Nat
  center_x : ℚ
  center_y : ℚ
  zoom : ℚ
  rotation_angle : ℚ
  color_shift : ℚ
  breathing_cycle : ℚ
  base_zoom : ℚ
  waypoint_index : Nat
  waypoints : List (ℚ × ℚ × ℚ)

/-- The literal waypoint table built in `MandelbrotMotion::new`. -/
def mandelWaypoints : List (ℚ × ℚ × ℚ) := [
  (-0.5, 0.0, 1.0),
  (-0.75, 0.1, 10.0),
  (0.3, 0.0, 50.0),
  (-0.1592, 1.0317, 100.0),
  (-0.8, 0.156, 200.0),
  (0.0, 0.8, 500.0),
  (-0.235125, 0.827215, 1000.0),
  (-0.7269, 0.1889, 2000.0)]

/-- `MandelbrotMotion::update_animation`: advance the breathing cycle by
0.01, map its sine to the zoom multiplier `0.5 + (sin + 1) * 0.75`, set
`zoom = base_zoom * multiplier`, advance rotation by 0.005 and color shift
by 0.2, and after the phase exceeds `6π` reset it, step to the next
waypoint (wrapping) and perturb the new center by
`sin/cos(frame_count * 0.001) * 0.005`. -/
def update_animation (sinF cosF : ℚ → ℚ) (piV : ℚ)
    (s : MandelAnimState) : MandelAnimState :=
  let breathing_cycle := s.breathing_cycle + 1 / 100
  let breathing_factor := sinF breathing_cycle
  let zoom_multiplier := 1 / 2 + (breathing_factor + 1) * (3 / 4)
  let zoom := s.base_zoom * zoom_multiplier
  let rotation_angle := s.rotation_angle + 5 / 1000
  let color_shift := s.color_shift + 2 / 10
  let should_cycle := decide (piV * 6 < breathing_cycle)
  if should_cycle then
    let waypoint_index := (s.waypoint_index + 1) % s.waypoints.length
    let waypoint := s.waypoints.getD waypoint_index (0, 0, 0)
    { s with
      breathing_cycle := 0
      zoom := zoom
      rotation_angle := rotation_angle
      color_shift := color_shift
      waypoint_index := waypoint_index
      base_zoom := waypoint.2.2
      center_x := waypoint.1 + sinF ((s.frame_count : ℚ) * (1 / 1000)) * (5 / 1000)
      center_y := waypoint.2.1 + cosF ((s.frame_count : ℚ) * (1 / 1000)) * (5 / 1000) }
  else
    { s with
      breathing_cycle := breathing_cycle
      zoom := zoom
      rotation_angle := rotation_angle
      color_shift := color_shift }

/-! ## DigitalClock motion (`src/motion/clock.rs`)

`ClockMotion::get_cycling_char` and `ClockMotion::draw_digit`.  A rendered
glyph row is modelled as a `List Char` (the characters of the Rust
`String` row). -/

/-- The literal `cycling_chars` table of `ClockMotion::new`: for each
decimal digit, its ordered alphabet of substitute characters. -/
def cycling_chars : List (List Char) := [
  ['0', 'O', 'o', '°', '○', '◯', '◉', '●', '◆', '◇', '◈', '◊'],
  ['1', 'I', 'l', '|', '│', '┃', '║', '╏', '╎', '┊', '┋', '┆'],
  ['2', 'Z', 'z', 'Ƶ', 'ƶ', 'Ɀ', 'Ȿ', 'ɀ', 'Ɂ', 'ɂ', 'Ƀ', 'Ʉ'],
  ['3', 'E', 'e', 'Ɛ', 'ε', 'ɛ', '∃', '∄', '∈', '∉', '∊', '∋'],
  ['4', 'A', 'a', '∀', '∁', '∂', '∃', '∄', '∅', '∆', '∇', '∈'],
  ['5', 'S', 's', '∫', '∬', '∭', '∮', '∯', '∰', '∱', '∲', '∳'],
  ['6', 'G', 'g', 'Γ', 'γ', 'δ', 'ε', 'ζ', 'η', 'θ', 'ι', 'κ'],
  ['7', 'T', 't', 'τ', 'υ', 'φ', 'χ', 'ψ', 'ω', 'ϖ', 'ϗ', 'Ϙ'],
  ['8', 'B', 'b', '∞', '∝', '∟', '∠', '∡', '∢', '∣', '∤', '∥'],
  ['9', 'P', 'p', 'π', 'ϖ', 'ϗ', 'Ϙ', 'ϙ', 'Ϛ', 'ϛ', 'Ϝ', 'ϝ']]

/-- `ClockMotion::get_cycling_char`: index the digit's alphabet by
`(frame / 3) % len` — the substitute character changes every 3 frames. -/
def get_cycling_char (digit frame : Nat) : Char :=
  let chars := cycling_chars.getD digit []
  chars.getD ((frame / 3) % chars.length) ' '

/-- `ClockMotion::draw_digit`: the fixed 5-row, 7-column block glyph for a
digit.  `char_to_use` is the frame-dependent cycling character; the source
computes it for every digit but splices it only into the glyphs for `0`
and `1` (row 2); digits `2`–`9` and the fallback arm are built from fixed
rows alone. -/
def draw_digit (digit frame : Nat) : List (List Char) :=
  let char_to_use := get_cycling_char digit frame
  match digit with
  | 0 => [
      " _____ ".toList,
      "|     |".toList,
      "|  ".toList ++ [char_to_use] ++ "  |".toList,
      "|     |".toList,
      "|_____|".toList]
  | 1 => [
      "   |   ".toList,
      "   |   ".toList,
      "   ".toList ++ [char_to_use] ++ "   ".toList,
      "   |   ".toList,
      "   |   ".toList]
  | 2 => [
      " _____ ".toList,
      "      |".toList,
      " _____|".toList,
      "|      ".toList,
      "|_____ ".toList]
  | 3 => [
      " _____ ".toList,
      "      |".toList,
      " _____|".toList,
      "      |".toList,
      " _____|".toList]
  | 4 => [
      "|     |".toList,
      "|     |".toList,
      "|_____|".toList,
      "      |".toList,
      "      |".toList]
  | 5 => [
      " _____ ".toList,
      "|      ".toList,
      "|_____ ".toList,
      "      |".toList,
      " _____|".toList]
  | 6 => [
      " _____ ".toList,
      "|      ".toList,
      "|_____ ".toList,
      "|     |".toList,
      "|_____|".toList]
  | 7 => [
      " _____ ".toList,
      "      |".toList,
      "      |".toList,
      "      |".toList,
      "      |".toList]
  | 8 => [
      " _____ ".toList,
      "|     |".toList,
      "|_____|".toList,
      "|     |".toList,
      "|_____|".toList]
  | 9 => [
      " _____ ".toList,
      "|     |".toList,
      "|_____|".toList,
      "      |".toList,
      " _____|".toList]
  | _ => [
      "       ".toList,
      "       ".toList,
      "       ".toList,
      "       ".toList,
      "       ".toList]

/-! ## Shutdown ordering (`src/lib.rs`: `run`, `cleanup_resources`,
`start_animation_thread`)

A small-step interleaving model of the two threads of `BusyCrab::run`
after the animation thread has been spawned.

Main thread (`run` with a motion configured):
`run_activity_loop` (abstracted to a single completed phase, `mLoop`) →
`cleanup_resources` = set the shared animation flag to `false`
(`mSetFlag`) then `handle.join()` (`mJoin`, enabled only once the
animation thread has terminated) → `display_shutdown_message` (`mMsg`) →
done.

Animation thread (the closure in `start_animation_thread`):
`while *running_clone.lock().unwrap()` (`aCheck`) →
`motion.update(); sleep` (`aUpdate`, counted in `renders`) → back to the
check; a `false` read terminates the thread (`aDone`). -/

/-- Main-thread program counter in `BusyCrab::run`. -/
inductive MainPc where
  | mLoop
  | mSetFlag
  | mJoin
  | mMsg
  | mDone
  deriving DecidableEq, Repr

/-- Animation-thread program counter in the spawned closure. -/
inductive AnimPc where
  | aCheck
  | aUpdate
  | aDone
  deriving DecidableEq, Repr

/-- The joint state of the two threads: program counters, the shared
`Arc<Mutex<bool>>` animation flag, the number of `motion.update()` calls
performed, and whether the final shutdown message has been printed. -/
structure SysState where
  mainPc : MainPc
  animPc : AnimPc
  animFlag : Bool
  renders : Nat
  msgPrinted : Bool
  deriving DecidableEq, Repr

/-- The state right after `start_animation_thread`: flag `true`, both
threads at the top of their loops, nothing rendered or printed yet. -/
def sysInit : SysState :=
  ⟨MainPc.mLoop, AnimPc.aCheck, true, 0, false⟩

/-- One interleaved step of `BusyCrab::run`: either the main thread or the
animation thread advances.  `mainJoin` fires only when the animation
thread has terminated (`handle.join()` blocks until then); the animation
thread reads the flag at `aCheck` and terminates on `false`. -/
inductive SysStep : SysState → SysState → Prop where
  | mainFinishLoop (a f r m) :
      SysStep ⟨MainPc.mLoop, a, f, r, m⟩ ⟨MainPc.mSetFlag, a, f, r, m⟩
  | mainSetFlag (a f r m) :
      SysStep ⟨MainPc.mSetFlag, a, f, r, m⟩ ⟨MainPc.mJoin, a, false, r, m⟩
  | mainJoin (f r m) :
      SysStep ⟨MainPc.mJoin, AnimPc.aDone, f, r, m⟩ ⟨MainPc.mMsg, AnimPc.aDone, f, r, m⟩
  | mainMsg (a f r m) :
      SysStep ⟨MainPc.mMsg, a, f, r, m⟩ ⟨MainPc.mDone, a, f, r, true⟩
  | animCheckTrue (p r m) :
      SysStep ⟨p, AnimPc.aCheck, true, r, m⟩ ⟨p, AnimPc.aUpdate, true, r, m⟩
  | animCheckFalse (p r m) :
      SysStep ⟨p, AnimPc.aCheck, false, r, m⟩ ⟨p, AnimPc.aDone, false, r, m⟩
  | animUpdate (p f r m) :
      SysStep ⟨p, AnimPc.aUpdate, f, r, m⟩ ⟨p, AnimPc.aCheck, f, r + 1, m⟩

/-- States reachable from the post-spawn initial state. -/
def SysReachable (s : SysState) : Prop :=
  Relation.ReflTransGen SysStep sysInit s

/-- The shutdown invariant of `BusyCrab::run`: a terminated animation
thread has already seen the flag `false`; once the main thread is past the
join, the animation thread has terminated and the flag is down; and the
shutdown message is printed only in the final main-thread state. -/
def SysInv (s : SysState) : Prop :=
  (s.animPc = AnimPc.aDone → s.animFlag = false) ∧
  ((s.mainPc = MainPc.mMsg ∨ s.mainPc = MainPc.mDone) →
    s.animPc = AnimPc.aDone ∧ s.animFlag = false) ∧
  (s.msgPrinted = true → s.mainPc = MainPc.mDone)

theorem sysInv_init : SysInv sysInit := by
  simp [SysInv, sysInit]

theorem sysInv_step (s s' : SysState) (hinv : SysInv s) (hstep : SysStep s s') :
    SysInv s' := by
  obtain ⟨i1, i2, i3⟩ := hinv
  cases hstep <;> refine ⟨?_, ?_, ?_⟩ <;> intro h <;> simp_all

theorem sysReachable_inv (s : SysState) (h : SysReachable s) : SysInv s := by
  have h' : Relation.ReflTransGen SysStep sysInit s := h
  clear h
  induction h' with
  | refl => exact sysInv_init
  | tail hsteps hstep ih => exact sysInv_step _ _ ih hstep

theorem sysFrozen_step (s s' : SysState) (hstep : SysStep s s')
    (hmain : s.mainPc = MainPc.mMsg ∨ s.mainPc = MainPc.mDone)
    (hanim : s.animPc = AnimPc.aDone) :
    (s'.mainPc = MainPc.mMsg ∨ s'.mainPc = MainPc.mDone) ∧
    s'.animPc = AnimPc.aDone ∧ s'.renders = s.renders := by
  cases hstep <;> simp_all

theorem sysFrozen (s s' : SysState)
    (hsteps : Relation.ReflTransGen SysStep s s')
    (hmain : s.mainPc = MainPc.mMsg ∨ s.mainPc = MainPc.mDone)
    (hanim : s.animPc = AnimPc.aDone) :
    (s'.mainPc = MainPc.mMsg ∨ s'.mainPc = MainPc.mDone) ∧
    s'.animPc = AnimPc.aDone ∧ s'.renders = s.renders := by
  induction hsteps with
  | refl => exact ⟨hmain, hanim, rfl⟩
  | tail h1 h2 ih =>
    obtain ⟨m1, a1, r1⟩ := ih
    obtain ⟨m2, a2, r2⟩ := sysFrozen_step _ _ h2 m1 a1
    exact ⟨m2, a2, r2.trans r1⟩

/-! ## Theorems -/

/-- C1 (counterexample): the selector `"mandelbrot"` does *not* select the
FractalZoom motion — `with_motion` recognizes only `"crab"` and
`"matrix"`, so `"mandelbrot"` leaves the motion unset. -/
theorem with_motion_mandelbrot_selects_none :
    with_motion "mandelbrot" = none ∧
    has_motion (with_motion "mandelbrot") = false := by
  constructor <;> decide

/-- C1 (amended): `with_motion` matches the key case-insensitively;
`"crab"` selects the Bounce (crab) motion and `"matrix"` the Rain (matrix)
motion, while `"none"` and every other key — including `"mandelbrot"` and
any clock key — select no animation rather than erroring. -/
theorem with_motion_selects_variant (s : String) :
    (to_lowercase s = "crab" → with_motion s = some MotionKind.crab) ∧
    (to_lowercase s = "matrix" → with_motion s = some MotionKind.matrix) ∧
    (to_lowercase s ≠ "crab" → to_lowercase s ≠ "matrix" →
      with_motion s = none) := by
  refine ⟨fun h => ?_, fun h => ?_, fun h1 h2 => ?_⟩
  · simp [with_motion, h]
  · simp [with_motion, h]
  · simp [with_motion, h1, h2]

/-- C1 (witness): the amended selection behavior at the concrete keys
`"CRAB"`, `"MaTrIx"` and `"clock"`. -/
theorem with_motion_selects_variant_witness :
    with_motion "CRAB" = some MotionKind.crab ∧
    with_motion "MaTrIx" = some MotionKind.matrix ∧
    with_motion "clock" = none :=
  ⟨(with_motion_selects_variant "CRAB").1 (by decide),
   (with_motion_selects_variant "MaTrIx").2.1 (by decide),
   (with_motion_selects_variant "clock").2.2 (by decide) (by decide)⟩

/-- C1 (supporting): `to_lowercase` on the documented keys. -/
theorem to_lowercase_keys :
    to_lowercase "CRAB" = "crab" ∧ to_lowercase "MaTrIx" = "matrix" ∧
    to_lowercase "clock" = "clock" := by
  decide

/-- C9: a successful activity cycle invokes the mouse-movement capability
exactly twice, with arguments `(wiggle, 0)` then `(-wiggle, 0)`, and the
net displacement of the two calls is zero; the counter is incremented. -/
theorem activity_cycle_success_mouse_calls (wiggle : Int) (count : Nat) :
    execute_activity_cycle (Except.ok ()) wiggle count =
      Except.ok (count + 1, [(wiggle, 0), (-wiggle, 0)]) ∧
    (simulate_activity wiggle).length = 2 ∧
    (simulate_activity wiggle).foldl
      (fun acc c => (acc.1 + c.1, acc.2 + c.2)) (0, 0) = (0, 0) := by
  refine ⟨rfl, rfl, ?_⟩
  simp [simulate_activity]

/-- C2: an activity cycle whose sleep-prevention call errors is atomic in
its failure: after any prefix of successful cycles, the erroring cycle
leaves the counter at its prior value (`count + pre.length`, not
incremented for the failed cycle), performs no mouse calls of its own,
stops the loop (the remaining schedule is never consumed), and propagates
the error to the caller. -/
theorem activity_cycle_error_atomic (wiggle : Int) (e : String) (b : Bool)
    (pre rest : List CycleEnv) (count : Nat)
    (hpre : ∀ env ∈ pre, okCycle env) :
    run_activity_loop wiggle (pre ++ ⟨true, Except.error e, b⟩ :: rest) count =
      ⟨count + pre.length,
       (List.replicate pre.length (simulate_activity wiggle)).flatten,
       Except.error e⟩ := by
  induction pre generalizing count with
  | nil =>
    simp [run_activity_loop, execute_activity_cycle]
  | cons env pre ih =>
    obtain ⟨hrun, hsleep, hwait⟩ := hpre env (List.mem_cons_self env pre)
    have hrest : ∀ env ∈ pre, okCycle env :=
      fun env h => hpre env (List.mem_cons_of_mem _ h)
    simp [run_activity_loop, hrun, hsleep, hwait, execute_activity_cycle,
      ih (count + 1) hrest, List.replicate_succ]
    omega

/-- C2 (witness): one successful cycle followed by an erroring one, from
counter 0: the final counter is 1, only the successful cycle's two mouse
calls happened, and the loop stopped with the error. -/
theorem activity_cycle_error_atomic_witness :
    run_activity_loop 5
      [⟨true, Except.ok (), true⟩, ⟨true, Except.error "Test error", true⟩] 0 =
      ⟨1, [(5, 0), (-5, 0)], Except.error "Test error"⟩ := by
  have h := activity_cycle_error_atomic 5 "Test error" true
    [⟨true, Except.ok (), true⟩] [] 0
    (by intro env henv; simp at henv; subst henv; exact ⟨rfl, rfl, rfl⟩)
  simpa [simulate_activity] using h

set_option maxRecDepth 8192 in
/-- C10 (supporting): every entry of the literal color palette lies in the
256-color cube range `16..=231`. -/
theorem color_palette_getD_bounds :
    ∀ k, k < 216 → 16 ≤ color_palette.getD k 0 ∧ color_palette.getD k 0 ≤ 231 := by
  decide

set_option maxRecDepth 8192 in
/-- C10: for every iteration count strictly below `max_iterations` and
every non-negative accumulated `color_shift`, `get_color`'s palette lookup
and `get_character`'s gradient lookup are in bounds, and the returned
color is a palette index in `16..=231` — in particular never `0`, so black
is reserved for points that reached `max_iterations`. -/
theorem mandelbrot_color_in_range (max_iterations iterations : Nat)
    (color_shift : ℚ) (h1 : iterations < max_iterations)
    (h2 : 0 ≤ color_shift) :
    get_color_index max_iterations color_shift iterations < color_palette.length ∧
    get_character_index max_iterations iterations < mandel_chars.length ∧
    16 ≤ get_color max_iterations color_shift iterations ∧
    get_color max_iterations color_shift iterations ≤ 231 ∧
    get_color max_iterations color_shift iterations ≠ 0 := by
  have hne : iterations ≠ max_iterations := Nat.ne_of_lt h1
  have hidx : get_color_index max_iterations color_shift iterations <
      color_palette.length := by
    simp only [get_color_index]
    exact Nat.lt_of_le_of_lt (min_le_right _ _) (by decide)
  have hcidx : get_character_index max_iterations iterations <
      mandel_chars.length := by
    simp only [get_character_index]
    exact Nat.lt_of_le_of_lt (min_le_right _ _) (by decide)
  have hcol : get_color max_iterations color_shift iterations =
      color_palette.getD (get_color_index max_iterations color_shift iterations) 0 := by
    simp [get_color, hne]
  have hb := color_palette_getD_bounds
    (get_color_index max_iterations color_shift iterations) (by simpa using hidx)
  refine ⟨hidx, hcidx, ?_, ?_, ?_⟩ <;> rw [hcol] <;> omega

/-- C10 (witness): the bounds at `max_iterations = 100`,
`iterations = 5`, `color_shift = 0`. -/
theorem mandelbrot_color_in_range_witness :
    16 ≤ get_color 100 0 5 ∧ get_color 100 0 5 ≠ 0 :=
  ⟨(mandelbrot_color_in_range 100 5 0 (by decide) (le_refl 0)).2.2.1,
   (mandelbrot_color_in_range 100 5 0 (by decide) (le_refl 0)).2.2.2.2⟩

/-- C7: the escape-time iteration returns exactly `max_iterations` for
`c = 0` (inside the main cardioid), escapes after a single iteration for
`c = 10 + 10i` (far outside the set, `|z|² = 200 ≥ 4` after the first
step), and always returns a count in `[0, max_iterations]`. -/
theorem mandelbrot_iterations_spec :
    (∀ n : Nat, mandelbrot_iterations n 0 0 = n) ∧
    mandelbrot_iterations 100 10 10 = 1 ∧
    (∀ (n : Nat) (x y : ℚ), mandelbrot_iterations n x y ≤ n) := by
  have hzero : ∀ n : Nat, mandelbrotGo 0 0 n 0 0 = n := by
    intro n
    induction n with
    | zero => rfl
    | succ k ih =>
      rw [mandelbrotGo]
      norm_num [ih]
  have hle : ∀ (x y : ℚ) (n : Nat) (zx zy : ℚ), mandelbrotGo x y n zx zy ≤ n := by
    intro x y n
    induction n with
    | zero => intro zx zy; exact Nat.le_refl 0
    | succ k ih =>
      intro zx zy
      rw [mandelbrotGo]
      split
      · exact Nat.succ_le_succ (ih _ _)
      · exact Nat.zero_le _
  refine ⟨hzero, ?_, fun n x y => hle x y n 0 0⟩
  rw [mandelbrot_iterations, mandelbrotGo]
  norm_num
  rw [mandelbrotGo]
  norm_num

/-- C3 (code evaluation at the failing input): with the terminal row count
at zero and a drop that has fallen past `rows + 10` (row 11), the Rain
drop-advance phase hits `random_range(0..0)`, which panics in the `rand`
crate — modelled as `none` — for every possible random oracle. -/
theorem matrix_update_drops_panics_at_zero_rows :
    update_drops 0 [(11 : ℚ)] (fun _ => false) (fun _ => 0) = none := by
  have hcond : (10 : ℚ) < 11 := by norm_num
  simp [update_drops, update_drops_go, dropStep, hcond]

/-- C8 (counterexample): the glyph for digit 2 does not cycle — its
rendering is identical at frames 0 and 3 even though the digit's
substitute-character alphabet advances between those frames (the source
computes `char_to_use` for every digit but splices it only into the
glyphs for digits 0 and 1). -/
theorem clock_digit_two_glyph_does_not_cycle :
    draw_digit 2 3 = draw_digit 2 0 ∧
    get_cycling_char 2 3 ≠ get_cycling_char 2 0 := by
  decide

/-- C8 (amended): every digit 0–9 renders as a fixed 5-row, 7-column
block glyph; the substitute character advances every 3 frames, but only
the glyphs for digits 0 and 1 embed it (at the center of row 2) — the
glyphs for digits 2–9 are frame-independent. -/
theorem clock_draw_digit_shape (digit frame : Nat) (hd : digit ≤ 9) :
    (draw_digit digit frame).length = 5 ∧
    (∀ row ∈ draw_digit digit frame, row.length = 7) ∧
    (draw_digit 0 frame).getD 2 [] =
      "|  ".toList ++ [get_cycling_char 0 frame] ++ "  |".toList ∧
    (draw_digit 1 frame).getD 2 [] =
      "   ".toList ++ [get_cycling_char 1 frame] ++ "   ".toList ∧
    get_cycling_char digit frame = get_cycling_char digit (3 * (frame / 3)) ∧
    (2 ≤ digit → draw_digit digit frame = draw_digit digit 0) := by
  refine ⟨?_, ?_, rfl, rfl, ?_, ?_⟩
  · interval_cases digit <;> rfl
  · interval_cases digit <;> (intro row hrow; fin_cases hrow <;> simp)
  · simp [get_cycling_char, Nat.mul_div_cancel_left]
  · interval_cases digit
    · intro h; exact absurd h (by decide)
    · intro h; exact absurd h (by decide)
    all_goals intro _; rfl

/-- C8 (witness): the glyph shape facts at digit 0, frame 4. -/
theorem clock_draw_digit_shape_witness : (draw_digit 0 4).length = 5 :=
  (clock_draw_digit_shape 0 4 (by decide)).1

/-- C4: in every execution of `BusyCrab::run`, (a) whenever the final
shutdown message has been printed, the animation stop-flag has already
been set `false` and the animation thread has already terminated and been
joinable (joined before `mMsg` is even reachable), and (b) from any state
in which the main thread is past the join, the `update()` call count never
increases again — no further frames are rendered. -/
theorem run_shutdown_ordering (s s' : SysState) (hreach : SysReachable s)
    (hsteps : Relation.ReflTransGen SysStep s s') :
    (s.msgPrinted = true → s.animFlag = false ∧ s.animPc = AnimPc.aDone) ∧
    ((s.mainPc = MainPc.mMsg ∨ s.mainPc = MainPc.mDone) →
      s'.renders = s.renders) := by
  obtain ⟨i1, i2, i3⟩ := sysReachable_inv s hreach
  constructor
  · intro hmsg
    have hjoined := i2 (Or.inr (i3 hmsg))
    exact ⟨hjoined.2, hjoined.1⟩
  · intro hmain
    exact (sysFrozen s s' hsteps hmain (i2 hmain).1).2.2

/-- C4 (witness): along the concrete shutdown trace — activity loop ends,
flag set `false`, animation thread observes it and terminates, join,
message — the final state satisfies both shutdown-ordering properties. -/
theorem run_shutdown_ordering_witness :
    ((⟨MainPc.mDone, AnimPc.aDone, false, 0, true⟩ : SysState).msgPrinted = true →
      (⟨MainPc.mDone, AnimPc.aDone, false, 0, true⟩ : SysState).animFlag = false ∧
      (⟨MainPc.mDone, AnimPc.aDone, false, 0, true⟩ : SysState).animPc = AnimPc.aDone) ∧
    (((⟨MainPc.mDone, AnimPc.aDone, false, 0, true⟩ : SysState).mainPc = MainPc.mMsg ∨
      (⟨MainPc.mDone, AnimPc.aDone, false, 0, true⟩ : SysState).mainPc = MainPc.mDone) →
      (⟨MainPc.mDone, AnimPc.aDone, false, 0, true⟩ : SysState).renders =
        (⟨MainPc.mDone, AnimPc.aDone, false, 0, true⟩ : SysState).renders) :=
  run_shutdown_ordering ⟨MainPc.mDone, AnimPc.aDone, false, 0, true⟩
    ⟨MainPc.mDone, AnimPc.aDone, false, 0, true⟩
    (Relation.ReflTransGen.tail
      (Relation.ReflTransGen.tail
        (Relation.ReflTransGen.tail
          (Relation.ReflTransGen.tail
            (Relation.ReflTransGen.tail Relation.ReflTransGen.refl
              (SysStep.mainFinishLoop AnimPc.aCheck true 0 false))
            (SysStep.mainSetFlag AnimPc.aCheck true 0 false))
          (SysStep.animCheckFalse MainPc.mJoin 0 false))
        (SysStep.mainJoin false 0 false))
      (SysStep.mainMsg AnimPc.aDone false 0 false))
    Relation.ReflTransGen.refl

/-- C5: under the direction invariant (direction is `±1`, as established
by `CrabMotion::new`), every tick keeps the position in `[0, width]` for
that tick's width, preserves the direction invariant, flips the direction
exactly when the step would exceed a bound — reaching `0` while moving
left or `width` while moving right — and clamps the position at the
violated boundary in that tick; consequently, over any sequence of ticks
the position always ends inside `[0, w]` for the most recent width `w`. -/
theorem crab_bounce_bounds (width : Nat) (s : CrabState)
    (hdir : s.direction = 1 ∨ s.direction = -1) :
    (crabUpdate width s).position ≤ width ∧
    ((crabUpdate width s).direction = 1 ∨ (crabUpdate width s).direction = -1) ∧
    ((crabUpdate width s).direction = -s.direction ↔
      (s.direction = -1 ∧ (s.position : Int) + s.direction ≤ 0) ∨
      (s.direction = 1 ∧ (width : Int) ≤ (s.position : Int) + s.direction)) ∧
    ((s.position : Int) + s.direction ≤ 0 → crabUpdate width s = ⟨0, 1⟩) ∧
    (0 < (s.position : Int) + s.direction →
      (width : Int) ≤ (s.position : Int) + s.direction →
      crabUpdate width s = ⟨width, -1⟩) ∧
    (∀ (widths : List Nat) (w : Nat),
      (crabRun s (widths ++ [w])).position ≤ w ∧
      ((crabRun s (widths ++ [w])).direction = 1 ∨
        (crabRun s (widths ++ [w])).direction = -1)) := by
  have step : ∀ (w : Nat) (t : CrabState),
      (t.direction = 1 ∨ t.direction = -1) →
      (crabUpdate w t).position ≤ w ∧
      ((crabUpdate w t).direction = 1 ∨ (crabUpdate w t).direction = -1) := by
    intro w t ht
    simp only [crabUpdate]
    split_ifs with h1 h2
    · exact ⟨Nat.zero_le _, Or.inl rfl⟩
    · exact ⟨Nat.le_refl _, Or.inr rfl⟩
    · exact ⟨by simp only; omega, ht⟩
  have flip : (crabUpdate width s).direction = -s.direction ↔
      (s.direction = -1 ∧ (s.position : Int) + s.direction ≤ 0) ∨
      (s.direction = 1 ∧ (width : Int) ≤ (s.position : Int) + s.direction) := by
    obtain ⟨p, d⟩ := s
    simp only [crabUpdate]
    rcases hdir with h | h <;> subst h <;> split_ifs with h1 h2 <;>
      simp_all <;> omega
  have clamp0 : (s.position : Int) + s.direction ≤ 0 →
      crabUpdate width s = ⟨0, 1⟩ := by
    intro h
    simp only [crabUpdate]
    rw [if_pos h]
  have clampW : 0 < (s.position : Int) + s.direction →
      (width : Int) ≤ (s.position : Int) + s.direction →
      crabUpdate width s = ⟨width, -1⟩ := by
    intro h1 h2
    simp only [crabUpdate]
    rw [if_neg (by omega), if_pos h2]
  have seq : ∀ (ws : List Nat) (t : CrabState),
      (t.direction = 1 ∨ t.direction = -1) → ∀ w : Nat,
      (crabRun t (ws ++ [w])).position ≤ w ∧
      ((crabRun t (ws ++ [w])).direction = 1 ∨
        (crabRun t (ws ++ [w])).direction = -1) := by
    intro ws
    induction ws with
    | nil =>
      intro t ht w
      simpa [crabRun] using step w t ht
    | cons w' ws ih =>
      intro t ht w
      have : crabRun t ((w' :: ws) ++ [w]) = crabRun (crabUpdate w' t) (ws ++ [w]) := by
        simp [crabRun]
      rw [this]
      exact ih (crabUpdate w' t) (step w' t ht).2 w
  exact ⟨(step width s hdir).1, (step width s hdir).2, flip, clamp0, clampW,
    fun ws w => seq ws s hdir w⟩

/-- C5 (witness): one tick from the initial state with width 5 keeps the
position within the bound. -/
theorem crab_bounce_bounds_witness : (crabUpdate 5 crabInit).position ≤ 5 :=
  (crab_bounce_bounds 5 crabInit (Or.inl rfl)).1

/-- C6: at every tick, for any sine implementation bounded by `[-1, 1]`,
the breathing multiplier `0.5 + (sin(phase) + 1) * 0.75` lies in
`[0.5, 2.0]`, the zoom computed by `update_animation` equals the base zoom
active during the update times this multiplier, and hence (for a positive
base zoom) the new zoom stays within `[0.5×, 2.0×]` of that base zoom. -/
theorem mandelbrot_zoom_envelope (sinF cosF : ℚ → ℚ) (piV : ℚ)
    (s : MandelAnimState) (hsin : ∀ x, -1 ≤ sinF x ∧ sinF x ≤ 1) :
    (update_animation sinF cosF piV s).zoom =
      s.base_zoom * (1 / 2 + (sinF (s.breathing_cycle + 1 / 100) + 1) * (3 / 4)) ∧
    (1 / 2 ≤ 1 / 2 + (sinF (s.breathing_cycle + 1 / 100) + 1) * (3 / 4) ∧
      1 / 2 + (sinF (s.breathing_cycle + 1 / 100) + 1) * (3 / 4) ≤ 2) ∧
    (0 < s.base_zoom →
      s.base_zoom * (1 / 2) ≤ (update_animation sinF cosF piV s).zoom ∧
      (update_animation sinF cosF piV s).zoom ≤ s.base_zoom * 2) := by
  obtain ⟨hlo, hhi⟩ := hsin (s.breathing_cycle + 1 / 100)
  have hzoom : (update_animation sinF cosF piV s).zoom =
      s.base_zoom * (1 / 2 + (sinF (s.breathing_cycle + 1 / 100) + 1) * (3 / 4)) := by
    simp only [update_animation]
    split_ifs <;> rfl
  have hmlo : (1 : ℚ) / 2 ≤ 1 / 2 + (sinF (s.breathing_cycle + 1 / 100) + 1) * (3 / 4) := by
    nlinarith
  have hmhi : 1 / 2 + (sinF (s.breathing_cycle + 1 / 100) + 1) * (3 / 4) ≤ (2 : ℚ) := by
    nlinarith
  refine ⟨hzoom, ⟨hmlo, hmhi⟩, fun hbase => ?_⟩
  rw [hzoom]
  constructor
  · exact mul_le_mul_of_nonneg_left hmlo (le_of_lt hbase)
  · exact mul_le_mul_of_nonneg_left hmhi (le_of_lt hbase)

/-- C6 (witness): with the zero sine oracle and base zoom 1, the updated
zoom is `1 * (0.5 + 1 * 0.75) = 1.25`, inside the envelope. -/
theorem mandelbrot_zoom_envelope_witness :
    (update_animation (fun _ => 0) (fun _ => 0) 3
        ⟨0, -1/2, 0, 1, 0, 0, 0, 1, 0, mandelWaypoints⟩).zoom =
      1 * (1 / 2 + ((0 : ℚ) + 1) * (3 / 4)) :=
  (mandelbrot_zoom_envelope (fun _ => 0) (fun _ => 0) 3
    ⟨0, -1/2, 0, 1, 0, 0, 0, 1, 0, mandelWaypoints⟩
    (fun _ => by norm_num)).1

end BusyCrab
